import Mathlib

/-
Verification of the alignment-and-replay data-feed engine
(src/algo_trade/data.py, class HistoricCSVDataHandler).

The embedding is a shallow one: the mutable instance state of the handler
becomes an explicit record, each method becomes a function on that record,
pandas frames become sorted association lists of (timestamp, bar) pairs,
the per-symbol iterrows iterator becomes the list of entries not yet
consumed, and Python exceptions become an explicit error type carried in
Except.  A padded reindex row whose fields are all NaN is modelled by the
value none of type Option Bar; a real row is some bar.
-/

set_option autoImplicit false

namespace AlgoTrade

/-- Ticker symbols are plain strings, as in the source. -/
abbrev Ticker := String

/-- Timestamps: the csv datetime index, kept abstract as integers. -/
abbrev Timestamp := Int

/-- One OHLCV row of a csv file.  The source names the columns
datetime, open, high, low, close, volume, adj_close; the datetime is the
frame index and is kept outside this record.  The field open is spelled
open_ because open is a reserved word in Lean. -/
structure Bar where
  open_ : Int
  high : Int
  low : Int
  close : Int
  volume : Int
  adj_close : Int
  deriving Repr, DecidableEq

/-- A row of a reindexed frame: some bar for a real (possibly
forward-filled) row, none for an all-NaN row produced by the pad reindex
at a position before the first observation of the symbol. -/
abbrev Row := Option Bar

/-- One element yielded by DataFrame.iterrows: the pair of the index
value (a timestamp) and the row.  This is exactly what update_bars
appends to latest_ticker_data. -/
abbrev Entry := Timestamp × Row

/-- A numeric value read out of a row by getattr: either a number or the
NaN that a padded all-NaN row holds in every column. -/
inductive Val where
  | nan : Val
  | num : Int → Val
  deriving Repr, DecidableEq

/-- The Python exceptions that the handler methods can raise:
KeyError from a dict lookup on an unregistered ticker, IndexError from
bars_list[-1] on an empty history, AttributeError from getattr with an
unrecognized column name. -/
inductive DataErr where
  | keyError : DataErr
  | indexError : DataErr
  | attributeError : DataErr
  deriving Repr, DecidableEq

/-- Python dict lookup d[k]: the first binding of the key, none when the
key is absent (a KeyError in the source). -/
def dictGet {α : Type} (d : List (Ticker × α)) (k : Ticker) : Option α :=
  match d with
  | [] => none
  | (k', v) :: rest => if k' = k then some v else dictGet rest k

/-- Python dict assignment d[k] = v: replace the binding in place when
the key exists, append a new binding otherwise (insertion order is kept,
as for Python dicts). -/
def dictSet {α : Type} (d : List (Ticker × α)) (k : Ticker) (v : α) : List (Ticker × α) :=
  match d with
  | [] => [(k, v)]
  | (k', w) :: rest => if k' = k then (k, v) :: rest else (k', w) :: dictSet rest k v

/-- A for-loop of dict assignments, one per ticker: for t in tl: d[t] = f t. -/
def dictSetAll {α : Type} (tl : List Ticker) (f : Ticker → α) (d : List (Ticker × α)) : List (Ticker × α) :=
  tl.foldl (fun d' t => dictSet d' t (f t)) d

/-- Insertion step of a stable sort of (timestamp, bar) rows by timestamp. -/
def insertBar (p : Timestamp × Bar) : List (Timestamp × Bar) → List (Timestamp × Bar)
  | [] => [p]
  | q :: rest => if p.1 ≤ q.1 then p :: q :: rest else q :: insertBar p rest

/-- Sorting a csv frame by its datetime index, modelling the .sort()
call performed right after read_csv in _open_convert_csv_files. -/
def sortByTimestamp (l : List (Timestamp × Bar)) : List (Timestamp × Bar) :=
  l.foldr insertBar []

/-- Insertion step of sorting a list of timestamps. -/
def insertTs (x : Timestamp) : List Timestamp → List Timestamp
  | [] => [x]
  | y :: rest => if x ≤ y then x :: y :: rest else y :: insertTs x rest

/-- Sort a list of timestamps ascending. -/
def sortTs (l : List Timestamp) : List Timestamp :=
  l.foldr insertTs []

/-- Drop adjacent duplicates of a sorted list of timestamps. -/
def dedupAdj : List Timestamp → List Timestamp
  | [] => []
  | [x] => [x]
  | x :: y :: rest => if x = y then dedupAdj (y :: rest) else x :: dedupAdj (y :: rest)

/-- pandas Index.union: the sorted, duplicate-free union of two indexes.
In the source this value is computed inside _open_convert_csv_files and
then discarded, because the call result is never assigned. -/
def indexUnion (xs ys : List Timestamp) : List Timestamp :=
  dedupAdj (sortTs (xs ++ ys))

/-- The last element of a list, as Python l[-1] but returning none
instead of raising IndexError on the empty list. -/
def lastElem {α : Type} : List α → Option α
  | [] => none
  | [a] => some a
  | _ :: b :: rest => lastElem (b :: rest)

/-- The pad (forward fill) value of a sorted frame at timestamp t: the
last row whose timestamp is at most t, none when every row is later. -/
def lastLE (df : List (Timestamp × Bar)) (t : Timestamp) : Option Bar :=
  (lastElem ((df.filter (fun p => decide (p.1 ≤ t))).map Prod.snd))

/-- DataFrame.reindex(index=idx, method=pad): one output row per index
position; a position before the first observation becomes an all-NaN
row, modelled as none. -/
def reindexPad (df : List (Timestamp × Bar)) (idx : List Timestamp) : List Entry :=
  idx.map (fun t => (t, lastLE df t))

/-- The comb_index loop of _open_convert_csv_files.  For the first
ticker the source stores the frame index (it writes index_col, the
attribute holding the index of the frame); for every later ticker it
evaluates comb_index.union(...) but never assigns the result, so
comb_index keeps the value taken from the first ticker.  The discarded
call is kept here as an unused let binding. -/
def combLoop (raw : Ticker → List (Timestamp × Bar)) : Option (List Timestamp) → List Ticker → Option (List Timestamp)
  | comb, [] => comb
  | comb, t :: rest =>
    match comb with
    | none => combLoop raw (some ((sortByTimestamp (raw t)).map Prod.fst)) rest
    | some ci =>
      let _ := indexUnion ci ((sortByTimestamp (raw t)).map Prod.fst)
      combLoop raw (some ci) rest

/-- The comb_index produced by _open_convert_csv_files, none when the
ticker list is empty (the loop body never runs). -/
def combIndexOf (tl : List Ticker) (raw : Ticker → List (Timestamp × Bar)) : Option (List Timestamp) :=
  combLoop raw none tl

/-- The instance state of HistoricCSVDataHandler after construction:
ticker_list as passed in, ticker_data holding for each ticker the
entries of the reindexed frame not yet consumed by its iterrows
iterator, latest_ticker_data holding the revealed history per ticker,
and the continue_backtest flag.  The events queue and csv_dir carry no
replay state and are omitted. -/
structure HandlerState where
  ticker_list : List Ticker
  ticker_data : List (Ticker × List Entry)
  latest_ticker_data : List (Ticker × List Entry)
  continue_backtest : Bool
  deriving Repr, DecidableEq

/-- Construction: __init__ plus _open_convert_csv_files.  The argument
raw maps each ticker to the parsed contents of its csv file, in file
order.  First loop: each frame is sorted, comb_index is accumulated
(with the discarded union, see combLoop), and every history is created
empty.  Second loop: each frame is reindexed onto comb_index with pad
and replaced by its iterrows iterator.  When the ticker list is empty
the second loop never runs, so the getD default is never reached.
This definition repairs, by their intended semantics, the two
attributes the source trips over (DataFrame.sort at data.py:68 and
index_col at data.py:71 do not exist in the pandas this repository
runs with, so both raise AttributeError as run); the as-run crash path
is modelled separately and faithfully by initHandler_run below. -/
def initHandler (tl : List Ticker) (raw : Ticker → List (Timestamp × Bar)) : HandlerState :=
  let axis := (combIndexOf tl raw).getD []
  let td0 := dictSetAll tl (fun t => sortByTimestamp (raw t)) []
  { ticker_list := tl
    ticker_data := dictSetAll tl (fun t => reindexPad ((dictGet td0 t).getD []) axis) []
    latest_ticker_data := dictSetAll tl (fun _ => ([] : List Entry)) []
    continue_backtest := true }

/-- Construction as the source actually runs: on the first iteration of
the loop of _open_convert_csv_files, read_csv(...).sort() at data.py:68
raises AttributeError (DataFrame.sort was removed from pandas long
before this repository, which imports tda, could run; the attribute
index_col read at data.py:71 has never existed either), so every
non-empty ticker list aborts construction with AttributeError before a
single frame is stored and before any validation of the series could
happen.  An empty ticker list skips both loops and builds the complete
engine state that __init__ set up, identical to the idealized
initHandler. -/
def initHandler_run (tl : List Ticker) (_raw : Ticker → List (Timestamp × Bar)) : Except DataErr HandlerState :=
  match tl with
  | [] =>
    .ok { ticker_list := [], ticker_data := [], latest_ticker_data := [], continue_backtest := true }
  | _ :: _ => .error .attributeError

/-- next(self._get_new_bar(s)): _get_new_bar builds a fresh generator
delegating to the shared iterrows iterator of the ticker, so a single
next call consumes exactly one entry of that iterator; none models the
StopIteration raised when the iterator is exhausted. -/
def next_get_new_bar (cursor : List Entry) : Option (Entry × List Entry) :=
  match cursor with
  | [] => none
  | e :: rest => some (e, rest)

/-- One iteration of the update_bars loop for ticker s.  StopIteration
is caught and sets continue_backtest to False.  Otherwise the yielded
bar, being a (timestamp, row) tuple, is never None, so the guard
if bar is not None always passes and the entry is appended, a padded
all-NaN row included.  An absent dict key is an uncaught KeyError. -/
def updateOne (st : HandlerState) (s : Ticker) : Except DataErr HandlerState :=
  match dictGet st.ticker_data s with
  | none => .error .keyError
  | some cursor =>
    match next_get_new_bar cursor with
    | none => .ok { st with continue_backtest := false }
    | some (e, rest) =>
      match dictGet st.latest_ticker_data s with
      | none => .error .keyError
      | some hist =>
        .ok { st with
          ticker_data := dictSet st.ticker_data s rest,
          latest_ticker_data := dictSet st.latest_ticker_data s (hist ++ [e]) }

/-- The for-loop of update_bars over a list of tickers. -/
def updateLoop : HandlerState → List Ticker → Except DataErr HandlerState
  | st, [] => .ok st
  | st, s :: rest =>
    match updateOne st s with
    | .error err => .error err
    | .ok st2 => updateLoop st2 rest

/-- update_bars: one advance pass over every ticker of ticker_list, in
registration order. -/
def update_bars (st : HandlerState) : Except DataErr HandlerState :=
  updateLoop st st.ticker_list

/-- A sequence of n update_bars calls. -/
def iterUpdateBars (st : HandlerState) : Nat → Except DataErr HandlerState
  | 0 => .ok st
  | n + 1 =>
    match update_bars st with
    | .error err => .error err
    | .ok st2 => iterUpdateBars st2 n

/-- Python slice bars_list[-N:]: for N = 0 the bound -0 equals 0, so the
slice is the whole list; for N at least 1 it is the last N elements,
fewer when the list is shorter. -/
def sliceLastN {α : Type} (l : List α) (n : Nat) : List α :=
  if n = 0 then l else l.drop (l.length - n)

/-- Reading one field of a row: a real row yields its numeric value, an
all-NaN padded row yields NaN in every column. -/
def valOf (r : Row) (f : Bar → Int) : Val :=
  match r with
  | some b => Val.num (f b)
  | none => Val.nan

/-- getattr(row, val_type) on a row of the frame: the six column names
resolve to the column values, any other name is an AttributeError. -/
def rowGetattr (r : Row) (field : String) : Except DataErr Val :=
  if field = "open" then .ok (valOf r Bar.open_)
  else if field = "high" then .ok (valOf r Bar.high)
  else if field = "low" then .ok (valOf r Bar.low)
  else if field = "close" then .ok (valOf r Bar.close)
  else if field = "volume" then .ok (valOf r Bar.volume)
  else if field = "adj_close" then .ok (valOf r Bar.adj_close)
  else .error .attributeError

/-- The column names that getattr recognizes on a row. -/
def barFields : List String :=
  ["open", "high", "low", "close", "volume", "adj_close"]

/-- get_latest_bar: the KeyError of the dict lookup is caught, printed
and re-raised; bars_list[-1] raises IndexError on an empty history. -/
def get_latest_bar (st : HandlerState) (t : Ticker) : Except DataErr Entry :=
  match dictGet st.latest_ticker_data t with
  | none => .error .keyError
  | some bars_list =>
    match lastElem bars_list with
    | none => .error .indexError
    | some e => .ok e

/-- get_latest_bars: returns bars_list[-N:], the KeyError re-raised as
in get_latest_bar.  No IndexError is possible: a slice never raises. -/
def get_latest_bars (st : HandlerState) (t : Ticker) (n : Nat) : Except DataErr (List Entry) :=
  match dictGet st.latest_ticker_data t with
  | none => .error .keyError
  | some bars_list => .ok (sliceLastN bars_list n)

/-- get_latest_bar_value: getattr(bars_list[-1][1], val_type), with the
KeyError of the lookup re-raised, the IndexError of bars_list[-1] and
the AttributeError of getattr propagating uncaught. -/
def get_latest_bar_value (st : HandlerState) (t : Ticker) (field : String) : Except DataErr Val :=
  match dictGet st.latest_ticker_data t with
  | none => .error .keyError
  | some bars_list =>
    match lastElem bars_list with
    | none => .error .indexError
    | some e => rowGetattr e.2 field

/-- The list comprehension of get_latest_bars_values: getattr of each
entry in turn, the first AttributeError aborting the whole expression. -/
def valuesOf : List Entry → String → Except DataErr (List Val)
  | [], _ => .ok []
  | e :: rest, field =>
    match rowGetattr e.2 field with
    | .error err => .error err
    | .ok v =>
      match valuesOf rest field with
      | .error err => .error err
      | .ok vs => .ok (v :: vs)

/-- get_latest_bars_values: delegates to get_latest_bars (whose
KeyError it re-raises) and extracts one field from every entry. -/
def get_latest_bars_values (st : HandlerState) (t : Ticker) (field : String) (n : Nat) : Except DataErr (List Val) :=
  match get_latest_bars st t n with
  | .error err => .error err
  | .ok bars_list => valuesOf bars_list field

/-- get_latest_bar in state-passing form: the method body reads
latest_ticker_data but assigns to no attribute of self, so every exit
path returns the state it was given. -/
def get_latest_bar_call (st : HandlerState) (t : Ticker) : Except DataErr Entry × HandlerState :=
  match dictGet st.latest_ticker_data t with
  | none => (.error .keyError, st)
  | some bars_list =>
    match lastElem bars_list with
    | none => (.error .indexError, st)
    | some e => (.ok e, st)

/-- get_latest_bars in state-passing form. -/
def get_latest_bars_call (st : HandlerState) (t : Ticker) (n : Nat) : Except DataErr (List Entry) × HandlerState :=
  match dictGet st.latest_ticker_data t with
  | none => (.error .keyError, st)
  | some bars_list => (.ok (sliceLastN bars_list n), st)

/-- get_latest_bar_value in state-passing form. -/
def get_latest_bar_value_call (st : HandlerState) (t : Ticker) (field : String) : Except DataErr Val × HandlerState :=
  match dictGet st.latest_ticker_data t with
  | none => (.error .keyError, st)
  | some bars_list =>
    match lastElem bars_list with
    | none => (.error .indexError, st)
    | some e => (rowGetattr e.2 field, st)

/-- get_latest_bars_values in state-passing form: the method call
self.get_latest_bars(ticker, N) threads the state through. -/
def get_latest_bars_values_call (st : HandlerState) (t : Ticker) (field : String) (n : Nat) : Except DataErr (List Val) × HandlerState :=
  match get_latest_bars_call st t n with
  | (.error err, st1) => (.error err, st1)
  | (.ok bars_list, st1) => (valuesOf bars_list field, st1)

/-- Whether an Except value is a success. -/
def isOkE {α : Type} : Except DataErr α → Bool
  | .ok _ => true
  | .error _ => false

/-- Follows the words of the spec, for comparison with combIndexOf: the
TimeAxis is the sorted, duplicate-free union of the timestamps of all
registered symbols raw series. -/
def specTimeAxis (tl : List Ticker) (raw : Ticker → List (Timestamp × Bar)) : List Timestamp :=
  tl.foldl (fun acc t => indexUnion acc ((sortByTimestamp (raw t)).map Prod.fst)) []

/-! Dictionary lemmas. -/

theorem dictGet_dictSet_same {α : Type} (d : List (Ticker × α)) (k : Ticker) (v : α) :
    dictGet (dictSet d k v) k = some v := by
  induction d with
  | nil => simp [dictGet, dictSet]
  | cons p rest ih =>
    obtain ⟨k', w⟩ := p
    by_cases h : k' = k
    · simp [dictGet, dictSet, h]
    · simp [dictGet, dictSet, h, ih]

theorem dictGet_dictSet_other {α : Type} (d : List (Ticker × α)) (k : Ticker) (v : α)
    (k' : Ticker) (h : k' ≠ k) :
    dictGet (dictSet d k v) k' = dictGet d k' := by
  have h2 : ¬ k = k' := fun hh => h hh.symm
  induction d with
  | nil => simp [dictGet, dictSet, h2]
  | cons p rest ih =>
    obtain ⟨k0, w⟩ := p
    by_cases h0 : k0 = k
    · subst h0
      simp [dictGet, dictSet, h2]
    · by_cases h1 : k0 = k'
      · simp [dictGet, dictSet, h0, h1, h]
      · simp [dictGet, dictSet, h0, h1, ih]

theorem dictGet_dictSetAll {α : Type} (tl : List Ticker) (f : Ticker → α)
    (d0 : List (Ticker × α)) (s : Ticker) :
    dictGet (dictSetAll tl f d0) s = if s ∈ tl then some (f s) else dictGet d0 s := by
  induction tl generalizing d0 with
  | nil => simp [dictSetAll]
  | cons t rest ih =>
    have hstep : dictSetAll (t :: rest) f d0 = dictSetAll rest f (dictSet d0 t (f t)) := by
      simp [dictSetAll]
    rw [hstep, ih]
    by_cases hs : s ∈ rest
    · simp [hs]
    · by_cases hst : s = t
      · subst hst
        simp [hs, dictGet_dictSet_same]
      · simp [hs, hst, dictGet_dictSet_other d0 t (f t) s hst]

/-! Characterization of the constructed state. -/

theorem initHandler_ticker_list (tl : List Ticker) (raw : Ticker → List (Timestamp × Bar)) :
    (initHandler tl raw).ticker_list = tl := rfl

theorem initHandler_latest (tl : List Ticker) (raw : Ticker → List (Timestamp × Bar)) (s : Ticker) :
    dictGet (initHandler tl raw).latest_ticker_data s
      = if s ∈ tl then some [] else none := by
  show dictGet (dictSetAll tl (fun _ => ([] : List Entry)) []) s = _
  rw [dictGet_dictSetAll]
  simp [dictGet]

theorem initHandler_td (tl : List Ticker) (raw : Ticker → List (Timestamp × Bar)) (s : Ticker) :
    dictGet (initHandler tl raw).ticker_data s
      = if s ∈ tl then
          some (reindexPad (sortByTimestamp (raw s)) ((combIndexOf tl raw).getD []))
        else none := by
  show dictGet (dictSetAll tl
      (fun t => reindexPad ((dictGet (dictSetAll tl (fun t' => sortByTimestamp (raw t')) []) t).getD [])
        ((combIndexOf tl raw).getD [])) []) s = _
  rw [dictGet_dictSetAll]
  by_cases hs : s ∈ tl
  · simp [hs, dictGet_dictSetAll]
  · simp [hs, dictGet]

theorem reindexPad_length (df : List (Timestamp × Bar)) (idx : List Timestamp) :
    (reindexPad df idx).length = idx.length := by
  simp [reindexPad]

/-! Step lemmas for updateOne. -/

theorem updateOne_empty (st : HandlerState) (s : Ticker)
    (h : dictGet st.ticker_data s = some []) :
    updateOne st s = .ok { st with continue_backtest := false } := by
  simp [updateOne, h, next_get_new_bar]

theorem updateOne_cons (st : HandlerState) (s : Ticker) (e : Entry) (c : List Entry)
    (hist : List Entry)
    (hc : dictGet st.ticker_data s = some (e :: c))
    (hh : dictGet st.latest_ticker_data s = some hist) :
    updateOne st s = .ok { st with
      ticker_data := dictSet st.ticker_data s c,
      latest_ticker_data := dictSet st.latest_ticker_data s (hist ++ [e]) } := by
  simp [updateOne, hc, hh, next_get_new_bar]

/-- Inversion of a successful updateOne given a nonempty cursor: the
history of the ticker must have been present, and the result state is
the one-step pop and append. -/
theorem updateOne_cons_inv (st st1 : HandlerState) (s : Ticker) (e : Entry) (c : List Entry)
    (hu : updateOne st s = .ok st1)
    (hc : dictGet st.ticker_data s = some (e :: c)) :
    ∃ hist, dictGet st.latest_ticker_data s = some hist ∧
      st1 = { st with
        ticker_data := dictSet st.ticker_data s c,
        latest_ticker_data := dictSet st.latest_ticker_data s (hist ++ [e]) } := by
  rcases hl : dictGet st.latest_ticker_data s with _ | hist
  · simp [updateOne, hc, hl, next_get_new_bar] at hu
  · rw [updateOne_cons st s e c hist hc hl] at hu
    exact ⟨hist, rfl, by injection hu with h; exact h.symm⟩

/-- Every successful updateOne keeps ticker_list, keeps the data of all
other tickers, and never turns continue_backtest back to true. -/
theorem updateOne_ok_inv (st st1 : HandlerState) (s : Ticker)
    (h : updateOne st s = .ok st1) :
    st1.ticker_list = st.ticker_list ∧
    (∀ s', s' ≠ s → dictGet st1.ticker_data s' = dictGet st.ticker_data s') ∧
    (∀ s', s' ≠ s → dictGet st1.latest_ticker_data s' = dictGet st.latest_ticker_data s') ∧
    (st.continue_backtest = false → st1.continue_backtest = false) := by
  rcases hcur : dictGet st.ticker_data s with _ | cursor
  · simp [updateOne, hcur] at h
  · rcases cursor with _ | ⟨e, c⟩
    · rw [updateOne_empty st s hcur] at h
      injection h with h
      subst h
      exact ⟨rfl, fun _ _ => rfl, fun _ _ => rfl, fun _ => rfl⟩
    · obtain ⟨hist, hl, hst1⟩ := updateOne_cons_inv st st1 s e c h hcur
      subst hst1
      refine ⟨rfl, ?_, ?_, fun hf => hf⟩
      · intro s' hs'
        exact dictGet_dictSet_other st.ticker_data s c s' hs'
      · intro s' hs'
        exact dictGet_dictSet_other st.latest_ticker_data s (hist ++ [e]) s' hs'

/-! Lemmas about the update_bars loop. -/

theorem updateLoop_ticker_list (st' : HandlerState) :
    ∀ (l : List Ticker) (st : HandlerState), updateLoop st l = .ok st' →
      st'.ticker_list = st.ticker_list := by
  intro l
  induction l with
  | nil =>
    intro st h
    simp only [updateLoop] at h
    injection h with h
    rw [h]
  | cons t rest ih =>
    intro st h
    simp only [updateLoop] at h
    split at h
    · exact absurd h (by simp)
    · rename_i st2 hu
      exact (ih st2 h).trans (updateOne_ok_inv st st2 t hu).1

theorem updateLoop_frame (st' : HandlerState) (s : Ticker) :
    ∀ (l : List Ticker) (st : HandlerState), updateLoop st l = .ok st' → s ∉ l →
      dictGet st'.ticker_data s = dictGet st.ticker_data s ∧
      dictGet st'.latest_ticker_data s = dictGet st.latest_ticker_data s := by
  intro l
  induction l with
  | nil =>
    intro st h _
    simp only [updateLoop] at h
    injection h with h
    rw [h]
    exact ⟨rfl, rfl⟩
  | cons t rest ih =>
    intro st h hs
    simp only [List.mem_cons, not_or] at hs
    simp only [updateLoop] at h
    split at h
    · exact absurd h (by simp)
    · rename_i st2 hu
      have h1 := updateOne_ok_inv st st2 t hu
      have h2 := ih st2 h hs.2
      exact ⟨h2.1.trans (h1.2.1 s hs.1), h2.2.trans (h1.2.2.1 s hs.1)⟩

theorem updateLoop_flag_mono (st' : HandlerState) :
    ∀ (l : List Ticker) (st : HandlerState), updateLoop st l = .ok st' →
      st.continue_backtest = false → st'.continue_backtest = false := by
  intro l
  induction l with
  | nil =>
    intro st h hf
    simp only [updateLoop] at h
    injection h with h
    rw [h] at hf
    exact hf
  | cons t rest ih =>
    intro st h hf
    simp only [updateLoop] at h
    split at h
    · exact absurd h (by simp)
    · rename_i st2 hu
      exact ih st2 h ((updateOne_ok_inv st st2 t hu).2.2.2 hf)

/-- One pass appends exactly the head of the cursor to the history of
every listed ticker whose cursor is nonempty, no matter what happens to
the tickers around it in the same pass. -/
theorem updateLoop_advances (st' : HandlerState) (s : Ticker) (e : Entry)
    (c hist : List Entry) :
    ∀ (l : List Ticker) (st : HandlerState), updateLoop st l = .ok st' → l.Nodup → s ∈ l →
      dictGet st.ticker_data s = some (e :: c) →
      dictGet st.latest_ticker_data s = some hist →
      dictGet st'.ticker_data s = some c ∧
      dictGet st'.latest_ticker_data s = some (hist ++ [e]) := by
  intro l
  induction l with
  | nil =>
    intro st _ _ hs
    cases hs
  | cons t rest ih =>
    intro st hrun hnd hs hc hh
    simp only [updateLoop] at hrun
    split at hrun
    · exact absurd hrun (by simp)
    · rename_i st2 hu
      rcases List.mem_cons.mp hs with hst | hsrest
      · subst hst
        obtain ⟨hist', hl', hst2⟩ := updateOne_cons_inv st st2 s e c hu hc
        rw [hh] at hl'
        injection hl' with hl'
        subst hl'
        have hnr : s ∉ rest := (List.nodup_cons.mp hnd).1
        have hf := updateLoop_frame st' s rest st2 hrun hnr
        subst hst2
        refine ⟨?_, ?_⟩
        · rw [hf.1]
          exact dictGet_dictSet_same st.ticker_data s c
        · rw [hf.2]
          exact dictGet_dictSet_same st.latest_ticker_data s (hist ++ [e])
      · have hst : s ≠ t := by
          rintro rfl
          exact (List.nodup_cons.mp hnd).1 hsrest
        have h1 := updateOne_ok_inv st st2 t hu
        refine ih st2 hrun (List.nodup_cons.mp hnd).2 hsrest ?_ ?_
        · rw [h1.2.1 s hst]
          exact hc
        · rw [h1.2.2.1 s hst]
          exact hh

/-- One pass over a list containing a ticker with an exhausted cursor
leaves that ticker untouched and reports exhaustion. -/
theorem updateLoop_exhaust (st' : HandlerState) (s : Ticker) :
    ∀ (l : List Ticker) (st : HandlerState), updateLoop st l = .ok st' → l.Nodup → s ∈ l →
      dictGet st.ticker_data s = some [] →
      dictGet st'.ticker_data s = some [] ∧
      dictGet st'.latest_ticker_data s = dictGet st.latest_ticker_data s ∧
      st'.continue_backtest = false := by
  intro l
  induction l with
  | nil =>
    intro st _ _ hs
    cases hs
  | cons t rest ih =>
    intro st hrun hnd hs hc
    simp only [updateLoop] at hrun
    split at hrun
    · exact absurd hrun (by simp)
    · rename_i st2 hu
      rcases List.mem_cons.mp hs with hst | hsrest
      · subst hst
        rw [updateOne_empty st s hc] at hu
        injection hu with hu
        subst hu
        have hnr : s ∉ rest := (List.nodup_cons.mp hnd).1
        have hf := updateLoop_frame st' s rest _ hrun hnr
        exact ⟨hf.1.trans hc, hf.2, updateLoop_flag_mono st' rest _ hrun rfl⟩
      · have hst : s ≠ t := by
          rintro rfl
          exact (List.nodup_cons.mp hnd).1 hsrest
        have h1 := updateOne_ok_inv st st2 t hu
        have h2 := ih st2 hrun (List.nodup_cons.mp hnd).2 hsrest (by rw [h1.2.1 s hst]; exact hc)
        exact ⟨h2.1, h2.2.1.trans (h1.2.2.1 s hst), h2.2.2⟩

/-- When every listed ticker still has entries to yield, a pass leaves
the continue_backtest flag exactly as it was. -/
theorem updateLoop_flag_preserved (st' : HandlerState) :
    ∀ (l : List Ticker) (st : HandlerState), updateLoop st l = .ok st' → l.Nodup →
      (∀ s ∈ l, ∃ e c, dictGet st.ticker_data s = some (e :: c)) →
      st'.continue_backtest = st.continue_backtest := by
  intro l
  induction l with
  | nil =>
    intro st h _ _
    simp only [updateLoop] at h
    injection h with h
    rw [h]
  | cons t rest ih =>
    intro st hrun hnd hne
    simp only [updateLoop] at hrun
    split at hrun
    · exact absurd hrun (by simp)
    · rename_i st2 hu
      obtain ⟨e, c, hc⟩ := hne t (List.mem_cons_self t rest)
      obtain ⟨hist, hl, hst2⟩ := updateOne_cons_inv st st2 t e c hu hc
      have hflag2 : st2.continue_backtest = st.continue_backtest := by rw [hst2]
      rw [← hflag2]
      refine ih st2 hrun (List.nodup_cons.mp hnd).2 ?_
      intro s hsrest
      have hst : s ≠ t := by
        rintro rfl
        exact (List.nodup_cons.mp hnd).1 hsrest
      obtain ⟨e', c', hc'⟩ := hne s (List.mem_cons_of_mem t hsrest)
      exact ⟨e', c', by rw [(updateOne_ok_inv st st2 t hu).2.1 s hst]; exact hc'⟩

/-- Setting the flag false in a state where it is already false is the
identity. -/
theorem setFlagFalse_self (st : HandlerState) (h : st.continue_backtest = false) :
    { st with continue_backtest := false } = st := by
  cases st
  simp_all

/-- A state whose listed cursors are all exhausted and whose flag is
already false is a fixed point of the update pass. -/
theorem updateLoop_absorb :
    ∀ (l : List Ticker) (st : HandlerState), st.continue_backtest = false →
      (∀ s ∈ l, dictGet st.ticker_data s = some []) →
      updateLoop st l = .ok st := by
  intro l
  induction l with
  | nil =>
    intro st _ _
    rfl
  | cons t rest ih =>
    intro st hf hc
    simp only [updateLoop]
    rw [updateOne_empty st t (hc t (List.mem_cons_self t rest)), setFlagFalse_self st hf]
    exact ih st hf (fun s hs => hc s (List.mem_cons_of_mem t hs))

theorem iterUpdateBars_absorb (st : HandlerState) (hf : st.continue_backtest = false)
    (hc : ∀ s ∈ st.ticker_list, dictGet st.ticker_data s = some []) :
    ∀ m : Nat, iterUpdateBars st m = .ok st := by
  intro m
  induction m with
  | zero => rfl
  | succ n ih =>
    have hub : update_bars st = .ok st := updateLoop_absorb st.ticker_list st hf hc
    simp only [iterUpdateBars, hub]
    exact ih

/-! The reachability invariant: every listed ticker has a cursor, the
cursors all have the same length (every frame was reindexed onto the
one comb_index), every listed ticker has a history, and a false flag
means every cursor is already exhausted. -/

def UInv (st : HandlerState) : Prop :=
  st.ticker_list.Nodup ∧
  (∃ L, ∀ s ∈ st.ticker_list, ∃ c, dictGet st.ticker_data s = some c ∧ c.length = L) ∧
  (∀ s ∈ st.ticker_list, ∃ hist, dictGet st.latest_ticker_data s = some hist) ∧
  (st.continue_backtest = false → ∀ s ∈ st.ticker_list, dictGet st.ticker_data s = some [])

theorem UInv_init (tl : List Ticker) (raw : Ticker → List (Timestamp × Bar))
    (hnd : tl.Nodup) : UInv (initHandler tl raw) := by
  refine ⟨hnd, ⟨((combIndexOf tl raw).getD []).length, ?_⟩, ?_, ?_⟩
  · intro s hs
    rw [initHandler_ticker_list] at hs
    exact ⟨_, by rw [initHandler_td, if_pos hs], reindexPad_length _ _⟩
  · intro s hs
    rw [initHandler_ticker_list] at hs
    exact ⟨[], by rw [initHandler_latest, if_pos hs]⟩
  · intro hf
    exact absurd hf (by simp [initHandler])

theorem UInv_step (st st' : HandlerState) (h : update_bars st = .ok st')
    (hi : UInv st) : UInv st' := by
  obtain ⟨hnd, ⟨L, hunif⟩, hlat, hflag⟩ := hi
  have htl : st'.ticker_list = st.ticker_list := updateLoop_ticker_list st' st.ticker_list st h
  rcases L with _ | L0
  · -- every cursor is already empty
    have hemp : ∀ s ∈ st.ticker_list, dictGet st.ticker_data s = some [] := by
      intro s hs
      obtain ⟨c, hc, hlen⟩ := hunif s hs
      rw [List.length_eq_zero] at hlen
      rw [hc, hlen]
    rcases hl : st.ticker_list with _ | ⟨t, rest⟩
    · -- no tickers at all: the pass is the identity
      have : updateLoop st st.ticker_list = .ok st := by rw [hl]; rfl
      rw [update_bars, this] at h
      injection h with h
      subst h
      exact ⟨hnd, ⟨0, hunif⟩, hlat, hflag⟩
    · have hex : ∀ s ∈ st.ticker_list,
          dictGet st'.ticker_data s = some [] ∧
          dictGet st'.latest_ticker_data s = dictGet st.latest_ticker_data s ∧
          st'.continue_backtest = false := by
        intro s hs
        exact updateLoop_exhaust st' s st.ticker_list st h hnd hs (hemp s hs)
      refine ⟨htl ▸ hnd, ⟨0, ?_⟩, ?_, ?_⟩
      · intro s hs
        rw [htl] at hs
        exact ⟨[], (hex s hs).1, rfl⟩
      · intro s hs
        rw [htl] at hs
        obtain ⟨hist, hh⟩ := hlat s hs
        exact ⟨hist, ((hex s hs).2.1).trans hh⟩
      · intro _ s hs
        rw [htl] at hs
        exact (hex s hs).1
  · -- every cursor still holds L0 + 1 entries
    have hcons : ∀ s ∈ st.ticker_list, ∃ e c, dictGet st.ticker_data s = some (e :: c) ∧ c.length = L0 := by
      intro s hs
      obtain ⟨c, hc, hlen⟩ := hunif s hs
      rcases c with _ | ⟨e, c'⟩
      · simp at hlen
      · exact ⟨e, c', hc, by simpa using hlen⟩
    have hadv : ∀ s ∈ st.ticker_list, ∃ e c hist,
        dictGet st'.ticker_data s = some c ∧ c.length = L0 ∧
        dictGet st'.latest_ticker_data s = some (hist ++ [e]) := by
      intro s hs
      obtain ⟨e, c, hc, hlen⟩ := hcons s hs
      obtain ⟨hist, hh⟩ := hlat s hs
      obtain ⟨h1, h2⟩ := updateLoop_advances st' s e c hist st.ticker_list st h hnd hs hc hh
      exact ⟨e, c, hist, h1, hlen, h2⟩
    have hfp : st'.continue_backtest = st.continue_backtest :=
      updateLoop_flag_preserved st' st.ticker_list st h hnd
        (fun s hs => ⟨(hcons s hs).choose, (hcons s hs).choose_spec.choose,
          (hcons s hs).choose_spec.choose_spec.1⟩)
    refine ⟨htl ▸ hnd, ⟨L0, ?_⟩, ?_, ?_⟩
    · intro s hs
      rw [htl] at hs
      obtain ⟨e, c, hist, h1, h2, _⟩ := hadv s hs
      exact ⟨c, h1, h2⟩
    · intro s hs
      rw [htl] at hs
      obtain ⟨e, c, hist, _, _, h3⟩ := hadv s hs
      exact ⟨hist ++ [e], h3⟩
    · intro hff s hs
      exfalso
      rw [htl] at hs
      rw [hfp] at hff
      obtain ⟨e, c, hc, _⟩ := hcons s hs
      have := hflag hff s hs
      rw [hc] at this
      injection this with this
      cases this

theorem UInv_reach :
    ∀ (k : Nat) (st0 st : HandlerState), UInv st0 → iterUpdateBars st0 k = .ok st → UInv st := by
  intro k
  induction k with
  | zero =>
    intro st0 st hi h
    injection h with h
    rw [← h]
    exact hi
  | succ n ih =>
    intro st0 st hi h
    simp only [iterUpdateBars] at h
    split at h
    · exact absurd h (by simp)
    · rename_i st2 hu
      exact ih st2 st (UInv_step st0 st2 hu hi) h

/-- A ticker outside ticker_list is never added to the dictionaries by
any number of update passes. -/
theorem iter_outside_none (s : Ticker) :
    ∀ (k : Nat) (st st' : HandlerState), iterUpdateBars st k = .ok st' →
      s ∉ st.ticker_list → dictGet st.latest_ticker_data s = none →
      s ∉ st'.ticker_list ∧ dictGet st'.latest_ticker_data s = none := by
  intro k
  induction k with
  | zero =>
    intro st st' h hm hn
    injection h with h
    rw [← h]
    exact ⟨hm, hn⟩
  | succ n ih =>
    intro st st' h hm hn
    simp only [iterUpdateBars] at h
    split at h
    · exact absurd h (by simp)
    · rename_i st2 hu
      have htl : st2.ticker_list = st.ticker_list := updateLoop_ticker_list st2 st.ticker_list st hu
      have hf := updateLoop_frame st2 s st.ticker_list st hu hm
      exact ih st2 st' h (by rw [htl]; exact hm) (hf.2.trans hn)

/-! Claim theorems. -/

/-- Claim C1: once an advance pass has observed an exhausted aligned
sequence and set continue_backtest to false, every later pass leaves
the flag false and no history grows further, for every run of the
engine started from construction. -/
theorem exhaustion_idempotent (tl : List Ticker) (raw : Ticker → List (Timestamp × Bar))
    (hnd : tl.Nodup) (k m : Nat) (st st' : HandlerState)
    (hk : iterUpdateBars (initHandler tl raw) k = .ok st)
    (hflag : st.continue_backtest = false)
    (hm : iterUpdateBars st m = .ok st') :
    st'.continue_backtest = false ∧ st'.latest_ticker_data = st.latest_ticker_data := by
  have hinv := UInv_reach k (initHandler tl raw) st (UInv_init tl raw hnd) hk
  have hcur := hinv.2.2.2 hflag
  have habs := iterUpdateBars_absorb st hflag hcur m
  rw [habs] at hm
  injection hm with hm
  rw [← hm]
  exact ⟨hflag, rfl⟩

/-- Concrete run for claim C1: a one-symbol engine exhausts on the
second pass, and three further passes change nothing. -/
theorem exhaustion_idempotent_witness :
    (["A"] : List Ticker).Nodup ∧
    iterUpdateBars (initHandler ["A"] (fun _ => [((1 : Int), Bar.mk 7 7 7 7 7 7)])) 2
      = .ok ⟨["A"], [("A", [])], [("A", [((1 : Int), some (Bar.mk 7 7 7 7 7 7))])], false⟩ ∧
    (⟨["A"], [("A", [])], [("A", [((1 : Int), some (Bar.mk 7 7 7 7 7 7))])], false⟩ : HandlerState).continue_backtest = false ∧
    iterUpdateBars ⟨["A"], [("A", [])], [("A", [((1 : Int), some (Bar.mk 7 7 7 7 7 7))])], false⟩ 3
      = .ok ⟨["A"], [("A", [])], [("A", [((1 : Int), some (Bar.mk 7 7 7 7 7 7))])], false⟩ ∧
    ((⟨["A"], [("A", [])], [("A", [((1 : Int), some (Bar.mk 7 7 7 7 7 7))])], false⟩ : HandlerState).continue_backtest = false ∧
      (⟨["A"], [("A", [])], [("A", [((1 : Int), some (Bar.mk 7 7 7 7 7 7))])], false⟩ : HandlerState).latest_ticker_data
        = (⟨["A"], [("A", [])], [("A", [((1 : Int), some (Bar.mk 7 7 7 7 7 7))])], false⟩ : HandlerState).latest_ticker_data) :=
  ⟨by decide, rfl, rfl, rfl,
    exhaustion_idempotent ["A"] (fun _ => [((1 : Int), Bar.mk 7 7 7 7 7 7)]) (by decide) 2 3
      ⟨["A"], [("A", [])], [("A", [((1 : Int), some (Bar.mk 7 7 7 7 7 7))])], false⟩
      ⟨["A"], [("A", [])], [("A", [((1 : Int), some (Bar.mk 7 7 7 7 7 7))])], false⟩
      rfl rfl rfl⟩

/-- Claim C5: one update_bars pass serves every registered ticker whose
cursor still has entries, exactly one entry each, no matter which other
tickers of the same pass are found exhausted. -/
theorem advance_pass_visits_all (st st' : HandlerState)
    (hnd : st.ticker_list.Nodup)
    (hrun : update_bars st = .ok st')
    (s : Ticker) (hs : s ∈ st.ticker_list)
    (e : Entry) (c hist : List Entry)
    (hc : dictGet st.ticker_data s = some (e :: c))
    (hh : dictGet st.latest_ticker_data s = some hist) :
    dictGet st'.latest_ticker_data s = some (hist ++ [e]) ∧
    dictGet st'.ticker_data s = some c := by
  have h := updateLoop_advances st' s e c hist st.ticker_list st hrun hnd hs hc hh
  exact ⟨h.2, h.1⟩

/-- Concrete run for claim C5: ticker A is found exhausted first in the
pass, and ticker B still receives and buffers its bar in the same call. -/
theorem advance_pass_visits_all_witness :
    (⟨["A", "B"], [("A", []), ("B", [((2 : Int), some (Bar.mk 2 2 2 2 2 2))])],
        [("A", [((1 : Int), some (Bar.mk 1 1 1 1 1 1))]), ("B", [])], true⟩ : HandlerState).ticker_list.Nodup ∧
    update_bars ⟨["A", "B"], [("A", []), ("B", [((2 : Int), some (Bar.mk 2 2 2 2 2 2))])],
        [("A", [((1 : Int), some (Bar.mk 1 1 1 1 1 1))]), ("B", [])], true⟩
      = .ok ⟨["A", "B"], [("A", []), ("B", [])],
        [("A", [((1 : Int), some (Bar.mk 1 1 1 1 1 1))]), ("B", [((2 : Int), some (Bar.mk 2 2 2 2 2 2))])], false⟩ ∧
    dictGet (⟨["A", "B"], [("A", []), ("B", [])],
        [("A", [((1 : Int), some (Bar.mk 1 1 1 1 1 1))]), ("B", [((2 : Int), some (Bar.mk 2 2 2 2 2 2))])], false⟩ : HandlerState).latest_ticker_data "B"
      = some ([] ++ [((2 : Int), some (Bar.mk 2 2 2 2 2 2))]) ∧
    dictGet (⟨["A", "B"], [("A", []), ("B", [])],
        [("A", [((1 : Int), some (Bar.mk 1 1 1 1 1 1))]), ("B", [((2 : Int), some (Bar.mk 2 2 2 2 2 2))])], false⟩ : HandlerState).ticker_data "B"
      = some [] :=
  ⟨by decide, rfl,
    (advance_pass_visits_all
      ⟨["A", "B"], [("A", []), ("B", [((2 : Int), some (Bar.mk 2 2 2 2 2 2))])],
        [("A", [((1 : Int), some (Bar.mk 1 1 1 1 1 1))]), ("B", [])], true⟩
      ⟨["A", "B"], [("A", []), ("B", [])],
        [("A", [((1 : Int), some (Bar.mk 1 1 1 1 1 1))]), ("B", [((2 : Int), some (Bar.mk 2 2 2 2 2 2))])], false⟩
      (by decide) rfl "B" (by decide) ((2 : Int), some (Bar.mk 2 2 2 2 2 2)) [] [] rfl rfl).1,
    (advance_pass_visits_all
      ⟨["A", "B"], [("A", []), ("B", [((2 : Int), some (Bar.mk 2 2 2 2 2 2))])],
        [("A", [((1 : Int), some (Bar.mk 1 1 1 1 1 1))]), ("B", [])], true⟩
      ⟨["A", "B"], [("A", []), ("B", [])],
        [("A", [((1 : Int), some (Bar.mk 1 1 1 1 1 1))]), ("B", [((2 : Int), some (Bar.mk 2 2 2 2 2 2))])], false⟩
      (by decide) rfl "B" (by decide) ((2 : Int), some (Bar.mk 2 2 2 2 2 2)) [] [] rfl rfl).2⟩

/-- Claim C7: every lookup operation raises the KeyError of the dict
access when invoked with a ticker the handler was not constructed with,
at any point of any run, and the error reaches the caller. -/
theorem unknown_symbol_lookups (tl : List Ticker) (raw : Ticker → List (Timestamp × Bar))
    (s : Ticker) (hs : s ∉ tl) (k : Nat) (st : HandlerState)
    (hk : iterUpdateBars (initHandler tl raw) k = .ok st)
    (field : String) (n : Nat) :
    get_latest_bar st s = .error .keyError ∧
    get_latest_bars st s n = .error .keyError ∧
    get_latest_bar_value st s field = .error .keyError ∧
    get_latest_bars_values st s field n = .error .keyError := by
  have h0 : dictGet (initHandler tl raw).latest_ticker_data s = none := by
    rw [initHandler_latest, if_neg hs]
  have hm0 : s ∉ (initHandler tl raw).ticker_list := by
    rw [initHandler_ticker_list]
    exact hs
  have h1 := iter_outside_none s k _ st hk hm0 h0
  refine ⟨?_, ?_, ?_, ?_⟩ <;>
    simp [get_latest_bar, get_latest_bars, get_latest_bar_value, get_latest_bars_values, h1.2]

/-- Concrete instance for claim C7: ticker B was never registered. -/
theorem unknown_symbol_lookups_witness :
    ("B" ∉ (["A"] : List Ticker)) ∧
    iterUpdateBars (initHandler ["A"] (fun _ => [((1 : Int), Bar.mk 7 7 7 7 7 7)])) 0
      = .ok (initHandler ["A"] (fun _ => [((1 : Int), Bar.mk 7 7 7 7 7 7)])) ∧
    (get_latest_bar (initHandler ["A"] (fun _ => [((1 : Int), Bar.mk 7 7 7 7 7 7)])) "B" = .error .keyError ∧
      get_latest_bars (initHandler ["A"] (fun _ => [((1 : Int), Bar.mk 7 7 7 7 7 7)])) "B" 1 = .error .keyError ∧
      get_latest_bar_value (initHandler ["A"] (fun _ => [((1 : Int), Bar.mk 7 7 7 7 7 7)])) "B" "close" = .error .keyError ∧
      get_latest_bars_values (initHandler ["A"] (fun _ => [((1 : Int), Bar.mk 7 7 7 7 7 7)])) "B" "close" 1 = .error .keyError) :=
  ⟨by decide, rfl,
    unknown_symbol_lookups ["A"] (fun _ => [((1 : Int), Bar.mk 7 7 7 7 7 7)]) "B" (by decide) 0
      (initHandler ["A"] (fun _ => [((1 : Int), Bar.mk 7 7 7 7 7 7)])) rfl "close" 1⟩

/-- Claim C2 (refuted, code bug): on two symbols with different
timestamp sets, the comb_index kept by construction is just the index
of the first symbol, because the union computed for the second symbol
is discarded; the union the spec prescribes also contains timestamp 3. -/
theorem comb_index_not_spec_union :
    combIndexOf ["A", "B"] (fun t =>
        if t = "A" then [((1 : Int), Bar.mk 1 1 1 1 1 1), ((2 : Int), Bar.mk 2 2 2 2 2 2)]
        else if t = "B" then [((2 : Int), Bar.mk 12 12 12 12 12 12), ((3 : Int), Bar.mk 13 13 13 13 13 13)]
        else []) = some [(1 : Int), 2] ∧
    specTimeAxis ["A", "B"] (fun t =>
        if t = "A" then [((1 : Int), Bar.mk 1 1 1 1 1 1), ((2 : Int), Bar.mk 2 2 2 2 2 2)]
        else if t = "B" then [((2 : Int), Bar.mk 12 12 12 12 12 12), ((3 : Int), Bar.mk 13 13 13 13 13 13)]
        else []) = [(1 : Int), 2, 3] ∧
    ¬ ([(1 : Int), 2] = [(1 : Int), 2, 3]) :=
  ⟨rfl, rfl, by decide⟩

/-- Claim C3 (code bug at n = 0): the slice bars_list[-0:] is the whole
list, so get_latest_bars with n = 0 returns the full two-bar history
instead of the empty sequence the claim states. -/
theorem latest_bars_zero_full_history :
    get_latest_bars ⟨["A"], [("A", [])],
        [("A", [((1 : Int), some (Bar.mk 1 1 1 1 1 1)), ((2 : Int), some (Bar.mk 2 2 2 2 2 2))])], true⟩ "A" 0
      = .ok [((1 : Int), some (Bar.mk 1 1 1 1 1 1)), ((2 : Int), some (Bar.mk 2 2 2 2 2 2))] ∧
    ¬ ([((1 : Int), some (Bar.mk 1 1 1 1 1 1)), ((2 : Int), some (Bar.mk 2 2 2 2 2 2))] = ([] : List Entry)) :=
  ⟨rfl, by decide⟩

/-- Claim C4 (code bug): the padded all-NaN row aligning ticker B before
its first observation is a (timestamp, row) tuple, so it passes the
if bar is not None guard and the first advance pass appends it to the
history of B, which the claim says stays empty. -/
theorem absent_row_appended :
    update_bars (initHandler ["A", "B"] (fun t =>
        if t = "A" then [((1 : Int), Bar.mk 1 1 1 1 1 1), ((2 : Int), Bar.mk 2 2 2 2 2 2)]
        else if t = "B" then [((2 : Int), Bar.mk 12 12 12 12 12 12)]
        else []))
      = .ok ⟨["A", "B"],
          [("A", [((2 : Int), some (Bar.mk 2 2 2 2 2 2))]),
           ("B", [((2 : Int), some (Bar.mk 12 12 12 12 12 12))])],
          [("A", [((1 : Int), some (Bar.mk 1 1 1 1 1 1))]),
           ("B", [((1 : Int), (none : Row))])], true⟩ ∧
    ¬ ([((1 : Int), (none : Row))] = ([] : List Entry)) :=
  ⟨rfl, by decide⟩

/-- Claim C6 counterexample: on the empty symbol mapping the claim says
construction fails with UnknownSymbol and no engine state is produced,
but as run the loop bodies never execute, nothing can raise, and a
complete engine state with no symbols is produced. -/
theorem construction_empty_input_succeeds :
    initHandler_run ([] : List Ticker) (fun _ => []) = .ok ⟨[], [], [], true⟩ :=
  rfl

/-- Claim C6 amended: construction raises neither UnknownSymbol nor
NonMonotonicSeries.  The empty ticker list is accepted and yields the
complete empty engine (exactly the idealized initHandler state), while
every non-empty ticker list aborts with AttributeError at data.py:68
and data.py:71 before any frame is stored, whether or not the raw
series are monotonic, so no partially usable engine state is ever
exposed. -/
theorem construction_no_typed_validation (tl : List Ticker) (raw : Ticker → List (Timestamp × Bar)) :
    initHandler_run tl raw
      = (if tl = [] then .ok (initHandler tl raw) else .error .attributeError) := by
  cases tl with
  | nil => rfl
  | cons t rest => rfl

/-! Helper lemmas for the lookup characterizations. -/

theorem lastElem_eq_none_iff {α : Type} : ∀ l : List α, lastElem l = none ↔ l = []
  | [] => by simp [lastElem]
  | [a] => by simp [lastElem]
  | a :: b :: rest => by
    rw [show lastElem (a :: b :: rest) = lastElem (b :: rest) from rfl]
    simp [lastElem_eq_none_iff (b :: rest)]

theorem rowGetattr_attributeError (r : Row) (field : String) :
    rowGetattr r field = .error .attributeError ↔ field ∉ barFields := by
  unfold rowGetattr barFields
  split_ifs <;> simp_all

theorem rowGetattr_ok_of_mem (r : Row) (field : String) (h : field ∈ barFields) :
    isOkE (rowGetattr r field) = true := by
  unfold barFields at h
  simp only [List.mem_cons, List.not_mem_nil, or_false] at h
  rcases h with rfl | rfl | rfl | rfl | rfl | rfl <;> rfl

/-- Claim C8 counterexample: on a registered ticker with an empty
history and an unrecognized field name, get_latest_bar_value raises the
IndexError of bars_list[-1], not the AttributeError the claim picks. -/
theorem empty_history_bad_field_is_index_error :
    get_latest_bar_value (initHandler ["A"] (fun _ => [((1 : Int), Bar.mk 1 1 1 1 1 1)])) "A" "bogus"
      = .error .indexError ∧
    DataErr.indexError ≠ DataErr.attributeError :=
  ⟨rfl, by decide⟩

/-- Claim C8 amended: for a registered ticker, get_latest_bar raises
IndexError exactly on an empty history; get_latest_bar_value raises
IndexError whenever the history is empty, whatever the field, raises
AttributeError exactly when the history is nonempty and the field is
not a recognized column name, and on a nonempty history with a
recognized field both operations succeed. -/
theorem latest_bar_error_characterization (st : HandlerState) (s : Ticker) (hist : List Entry)
    (hs : dictGet st.latest_ticker_data s = some hist) (field : String) :
    (get_latest_bar st s = .error .indexError ↔ hist = []) ∧
    (hist = [] → get_latest_bar_value st s field = .error .indexError) ∧
    (hist ≠ [] → (get_latest_bar_value st s field = .error .attributeError ↔ field ∉ barFields)) ∧
    (hist ≠ [] → field ∈ barFields →
      isOkE (get_latest_bar st s) = true ∧ isOkE (get_latest_bar_value st s field) = true) := by
  rcases hl : lastElem hist with _ | e
  · have hemp : hist = [] := (lastElem_eq_none_iff hist).mp hl
    subst hemp
    refine ⟨by simp [get_latest_bar, hs, lastElem], ?_, ?_, ?_⟩
    · intro _
      simp [get_latest_bar_value, hs, lastElem]
    · intro hne
      exact absurd rfl hne
    · intro hne _
      exact absurd rfl hne
  · have hne' : hist ≠ [] := by
      intro hh
      rw [hh] at hl
      simp [lastElem] at hl
    refine ⟨?_, ?_, ?_, ?_⟩
    · simp [get_latest_bar, hs, hl, hne']
    · intro hh
      exact absurd hh hne'
    · intro _
      simp only [get_latest_bar_value, hs, hl]
      exact rowGetattr_attributeError e.2 field
    · intro _ hf
      constructor
      · simp [get_latest_bar, hs, hl, isOkE]
      · simp only [get_latest_bar_value, hs, hl]
        exact rowGetattr_ok_of_mem e.2 field hf

/-- Concrete instance for the amended claim C8. -/
theorem latest_bar_error_characterization_witness :
    dictGet (⟨["A"], [("A", [])], [("A", [((1 : Int), some (Bar.mk 1 2 3 4 5 6))])], true⟩ : HandlerState).latest_ticker_data "A"
      = some [((1 : Int), some (Bar.mk 1 2 3 4 5 6))] ∧
    ((get_latest_bar ⟨["A"], [("A", [])], [("A", [((1 : Int), some (Bar.mk 1 2 3 4 5 6))])], true⟩ "A"
        = .error .indexError ↔ [((1 : Int), some (Bar.mk 1 2 3 4 5 6))] = ([] : List Entry)) ∧
      ([((1 : Int), some (Bar.mk 1 2 3 4 5 6))] = ([] : List Entry) →
        get_latest_bar_value ⟨["A"], [("A", [])], [("A", [((1 : Int), some (Bar.mk 1 2 3 4 5 6))])], true⟩ "A" "close"
          = .error .indexError) ∧
      ([((1 : Int), some (Bar.mk 1 2 3 4 5 6))] ≠ ([] : List Entry) →
        (get_latest_bar_value ⟨["A"], [("A", [])], [("A", [((1 : Int), some (Bar.mk 1 2 3 4 5 6))])], true⟩ "A" "close"
          = .error .attributeError ↔ "close" ∉ barFields)) ∧
      ([((1 : Int), some (Bar.mk 1 2 3 4 5 6))] ≠ ([] : List Entry) → "close" ∈ barFields →
        isOkE (get_latest_bar ⟨["A"], [("A", [])], [("A", [((1 : Int), some (Bar.mk 1 2 3 4 5 6))])], true⟩ "A") = true ∧
        isOkE (get_latest_bar_value ⟨["A"], [("A", [])], [("A", [((1 : Int), some (Bar.mk 1 2 3 4 5 6))])], true⟩ "A" "close") = true)) :=
  ⟨rfl,
    latest_bar_error_characterization
      ⟨["A"], [("A", [])], [("A", [((1 : Int), some (Bar.mk 1 2 3 4 5 6))])], true⟩
      "A" [((1 : Int), some (Bar.mk 1 2 3 4 5 6))] rfl "close"⟩

/-- Claim C9: on a nonempty history, the close value read through
get_latest_bar_value is exactly the close component of the row of the
entry returned by get_latest_bar. -/
theorem close_field_roundtrip (st : HandlerState) (s : Ticker) (hist : List Entry) (e : Entry)
    (hs : dictGet st.latest_ticker_data s = some hist)
    (hl : lastElem hist = some e) :
    get_latest_bar st s = .ok e ∧
    get_latest_bar_value st s "close" = .ok (valOf e.2 Bar.close) := by
  constructor
  · simp [get_latest_bar, hs, hl]
  · simp only [get_latest_bar_value, hs, hl]
    rfl

/-- Concrete instance for claim C9. -/
theorem close_field_roundtrip_witness :
    dictGet (⟨["A"], [("A", [])], [("A", [((1 : Int), some (Bar.mk 1 2 3 4 5 6))])], true⟩ : HandlerState).latest_ticker_data "A"
      = some [((1 : Int), some (Bar.mk 1 2 3 4 5 6))] ∧
    lastElem [((1 : Int), some (Bar.mk 1 2 3 4 5 6))] = some ((1 : Int), some (Bar.mk 1 2 3 4 5 6)) ∧
    (get_latest_bar ⟨["A"], [("A", [])], [("A", [((1 : Int), some (Bar.mk 1 2 3 4 5 6))])], true⟩ "A"
        = .ok ((1 : Int), some (Bar.mk 1 2 3 4 5 6)) ∧
      get_latest_bar_value ⟨["A"], [("A", [])], [("A", [((1 : Int), some (Bar.mk 1 2 3 4 5 6))])], true⟩ "A" "close"
        = .ok (valOf (some (Bar.mk 1 2 3 4 5 6)) Bar.close)) :=
  ⟨rfl, rfl,
    close_field_roundtrip
      ⟨["A"], [("A", [])], [("A", [((1 : Int), some (Bar.mk 1 2 3 4 5 6))])], true⟩
      "A" [((1 : Int), some (Bar.mk 1 2 3 4 5 6))] ((1 : Int), some (Bar.mk 1 2 3 4 5 6)) rfl rfl⟩

/-- Claim C10: the four lookup operations are pure reads: in
state-passing form each returns the state it was given on every path,
success and failure alike, and its result agrees with the direct
reading; only update_bars mutates the handler state. -/
theorem lookups_pure (st : HandlerState) (t : Ticker) (field : String) (n : Nat) :
    (get_latest_bar_call st t).2 = st ∧
    (get_latest_bars_call st t n).2 = st ∧
    (get_latest_bar_value_call st t field).2 = st ∧
    (get_latest_bars_values_call st t field n).2 = st ∧
    (get_latest_bar_call st t).1 = get_latest_bar st t ∧
    (get_latest_bars_call st t n).1 = get_latest_bars st t n ∧
    (get_latest_bar_value_call st t field).1 = get_latest_bar_value st t field ∧
    (get_latest_bars_values_call st t field n).1 = get_latest_bars_values st t field n := by
  refine ⟨?_, ?_, ?_, ?_, ?_, ?_, ?_, ?_⟩
  · unfold get_latest_bar_call
    split <;> first | rfl | (split <;> rfl)
  · unfold get_latest_bars_call
    split <;> rfl
  · unfold get_latest_bar_value_call
    split <;> first | rfl | (split <;> rfl)
  · unfold get_latest_bars_values_call get_latest_bars_call
    cases dictGet st.latest_ticker_data t <;> rfl
  · unfold get_latest_bar_call get_latest_bar
    split <;> first | rfl | (split <;> rfl)
  · unfold get_latest_bars_call get_latest_bars
    split <;> rfl
  · unfold get_latest_bar_value_call get_latest_bar_value
    split <;> first | rfl | (split <;> rfl)
  · unfold get_latest_bars_values_call get_latest_bars_call get_latest_bars_values get_latest_bars
    cases dictGet st.latest_ticker_data t <;> rfl

end AlgoTrade
